import Mathlib

/-!
# rest-api-deploy: the movie resource server of `app.js`

A shallow embedding of the five route handlers and of the CORS origin callback
of `app.js`, followed by the properties of the specification that were checked
against them.

Modelling conventions.

* The module-level array `movies` is threaded explicitly: every handler takes the
  store it finds and returns the store it leaves, together with what happened
  on the response object.
* `crypto.randomUUID()` is an input of the create handler.
* `validateMovie` and `validatePartialMovie` come from `./schemas/movies`, which is
  not part of the sources at hand; the handlers take them as arguments.
* `String.prototype.toLowerCase` is an argument of the list handler, so that
  nothing proved here depends on a particular case-folding table.
-/

namespace RestApiDeploy

/-! ## Data model -/

/-- A JSON number as written, `mantissa * 10 ^ exponent`. The handlers only carry
numbers around, they never compute with them. -/
structure JsNumber where
  mantissa : Int
  exponent : Int
deriving DecidableEq, Repr

/-- Modelled from the spec: the `data` of a successful `validateMovie` (the schema
lives in `./schemas/movies`, absent from the sources). It holds the recognised
fields only, every one of them present; there is no `id` among them. -/
structure MovieData where
  title : String
  year : Int
  director : String
  duration : Int
  rate : JsNumber
  poster : String
  genre : List String
deriving DecidableEq, Repr

/-- Modelled from the spec: the `data` of a successful `validatePartialMovie` (same
schema, every field optional). A field that was absent from the request is absent
here (`none`). -/
structure MoviePatch where
  title : Option String
  year : Option Int
  director : Option String
  duration : Option Int
  rate : Option JsNumber
  poster : Option String
  genre : Option (List String)
deriving DecidableEq, Repr

/-- A record of the store: the fields of the schema plus the `id`. -/
structure Movie extends MovieData where
  id : String
deriving DecidableEq, Repr

/-- Modelled from the spec: one entry of the field-keyed list of violated
constraints a failed validation carries. -/
structure Issue where
  path : List String
  message : String
deriving DecidableEq, Repr

/-- Modelled from the spec: the result object of `validateMovie` and of
`validatePartialMovie` (both absent from the sources), a discriminated result. A
`success` carries the sanitized `data` and no `error`. A `failure` has `success: false`
and an `error` whose `message` is the JSON text of the issue list; `issues` is the
value `JSON.parse(result.error.message)` that the handlers send. The two tests used in
`app.js`, `result.error` and `!result.success`, both single out `failure`. -/
inductive SafeParse (α : Type) where
  | success (data : α)
  | failure (issues : List Issue)
deriving Repr

/-! ## The response object -/

/-- The JSON bodies the handlers send. -/
inductive Body where
  /-- An array of records, `res.json(movies)`. -/
  | movies (records : List Movie)
  /-- One record, `res.json(movie)`. -/
  | movie (record : Movie)
  /-- The object `{ message: text }`. -/
  | message (text : String)
  /-- The object `{ error: issues }`. -/
  | error (issues : List Issue)
deriving DecidableEq, Repr

/-- An exception raised while a handler runs. -/
inductive JsError where
  | typeError (message : String)
deriving DecidableEq, Repr

/-- What a handler did with `res`: it sent a body with a status code (`res.json`
alone sends with the default `200`), or it raised before sending anything. -/
inductive Reply where
  | sent (status : Nat) (body : Body)
  | threw (error : JsError)
deriving DecidableEq, Repr

/-- The store a handler leaves behind and its reply. -/
structure Outcome where
  movies : List Movie
  reply : Reply
deriving DecidableEq, Repr

/-- The call `res.statusCode(404)`. On the response object `statusCode` is the numeric
status property (the chaining setter is `res.status`), so calling it raises a
`TypeError`; neither the `.json(...)` chained to it nor any later statement of the
handler runs. -/
def statusCodeCall : JsError :=
  JsError.typeError "res.statusCode is not a function"

/-! ## Array and value primitives -/

/-- The test `if (x)` on a value that is a string or `undefined`: the empty string and
`undefined` are falsy. -/
def truthy : Option String → Bool
  | none => false
  | some s => s != ""

/-- The method `Array.prototype.findIndex`: the position of the first element that
satisfies `p`; `none` stands for `-1`. -/
def findIndex {α : Type} (p : α → Bool) : (l : List α) → Option (Fin l.length)
  | [] => none
  | x :: xs => if p x then some ⟨0, Nat.succ_pos _⟩ else (findIndex p xs).map Fin.succ

/-! ## CORS gate -/

/-- The allow-list of the origin callback. -/
def ACCEPTED_ORIGINS : List String :=
  [ "http://127.0.0.1:5500",
    "http://localhost:5500",
    "https://movies.com",
    "https://midu.dev" ]

/-- What the origin callback hands to `callback`: `(null, true)` or an `Error`. -/
inductive CorsDecision where
  | allow
  | reject (error : String)
deriving DecidableEq, Repr

/-- The test `ACCEPTED_ORIGINS.includes(origin)`; `undefined` is no element of the list. -/
def includesOrigin : Option String → Bool
  | none => false
  | some o => ACCEPTED_ORIGINS.contains o

/-- The `origin` function given to `cors(...)`; its argument is the `Origin` request
header, `none` when the request has none. -/
def corsOrigin (origin : Option String) : CorsDecision :=
  if includesOrigin origin then
    CorsDecision.allow
  else if !truthy origin then
    CorsDecision.allow
  else
    CorsDecision.reject "Not allowed by CORS"

/-! ## Route handlers -/

/-- The handler `app.get('/movies')`. `genre` is `req.query.genre`, a text or `undefined`
(the query string names the key at most once). A truthy `genre` filters, and
`res.json` answers with the default status 200 in both branches. -/
def getMovies (toLowerCase : String → String) (movies : List Movie)
    (genre : Option String) : Outcome :=
  match genre with
  | some g =>
    if truthy (some g) then
      let filteredMovies :=
        movies.filter fun movie => movie.genre.any fun x => toLowerCase x == toLowerCase g
      ⟨movies, Reply.sent 200 (Body.movies filteredMovies)⟩
    else
      ⟨movies, Reply.sent 200 (Body.movies movies)⟩
  | none => ⟨movies, Reply.sent 200 (Body.movies movies)⟩

/-- The handler `app.get('/movies/:id')`: `movies.find` gives the first record with the id
or `undefined`. -/
def getMovieById (movies : List Movie) (id : String) : Outcome :=
  match movies.find? fun movie => movie.id == id with
  | some movie => ⟨movies, Reply.sent 200 (Body.movie movie)⟩
  | none => ⟨movies, Reply.sent 404 (Body.message "Movie not found")⟩

/-- The handler `app.post('/movies')`. `uuid` is the value of `crypto.randomUUID()`;
`newMovie` is `{ id: uuid, ...result.data }`, and `movies.push(newMovie)` appends it. -/
def postMovies {β : Type} (validateMovie : β → SafeParse MovieData) (uuid : String)
    (movies : List Movie) (body : β) : Outcome :=
  match validateMovie body with
  | SafeParse.failure issues => ⟨movies, Reply.sent 400 (Body.error issues)⟩
  | SafeParse.success data =>
    let newMovie : Movie := { data with id := uuid }
    ⟨movies ++ [newMovie], Reply.sent 201 (Body.movie newMovie)⟩

/-- The handler `app.delete('/movies/:id')`. -/
def deleteMovieById (movies : List Movie) (id : String) : Outcome :=
  match findIndex (fun movie => movie.id == id) movies with
  | none =>
    -- `movieIndex === -1`: the call `res.statusCode(404)` raises, the splice is not reached
    ⟨movies, Reply.threw statusCodeCall⟩
  | some movieIndex =>
    -- `movies.splice(movieIndex, 1)`, then `res.json({ message: 'Movie deleted' })`
    ⟨movies.eraseIdx movieIndex, Reply.sent 200 (Body.message "Movie deleted")⟩

/-- The object `{ ...movie, ...data }` of the update handler: a field of the patch wins,
a field the patch lacks is taken from the record. -/
def spread (movie : Movie) (data : MoviePatch) : Movie :=
  { id := movie.id
    title := data.title.getD movie.title
    year := data.year.getD movie.year
    director := data.director.getD movie.director
    duration := data.duration.getD movie.duration
    rate := data.rate.getD movie.rate
    poster := data.poster.getD movie.poster
    genre := data.genre.getD movie.genre }

/-- The handler `app.patch('/movies/:id')`. `stored` is the array `movies` after the
assignment `movies[movieIndex] = updateMovie`; the body sent is read back from it. -/
def patchMovieById {β : Type} (validatePartialMovie : β → SafeParse MoviePatch)
    (movies : List Movie) (id : String) (body : β) : Outcome :=
  match validatePartialMovie body with
  | SafeParse.failure issues => ⟨movies, Reply.sent 400 (Body.error issues)⟩
  | SafeParse.success data =>
    match findIndex (fun movie => movie.id == id) movies with
    | none =>
      -- `movieIndex === -1`: the call `res.statusCode(404)` raises, the merge is not reached
      ⟨movies, Reply.threw statusCodeCall⟩
    | some movieIndex =>
      let updateMovie := spread movies[movieIndex] data
      let stored := movies.set movieIndex updateMovie
      ⟨stored, Reply.sent 200 (Body.movie (stored.get ⟨movieIndex, by simp [stored]⟩))⟩

/-! ## Sample data -/

/-- The record of the concrete scenario of the spec, under a sample identifier. -/
def inception : Movie :=
  { id := "dcdd0fad-a94c-4810-8acc-5f108d3b18c3"
    title := "Inception"
    year := 2010
    director := "Nolan"
    duration := 148
    rate := ⟨88, -1⟩
    poster := "https://x/p.jpg"
    genre := ["Sci-Fi"] }

/-- A second sample record. -/
def matrix : Movie :=
  { id := "5ad1a235-0d9c-410a-b32b-220d91689a08"
    title := "The Matrix"
    year := 1999
    director := "Wachowski"
    duration := 136
    rate := ⟨87, -1⟩
    poster := "https://x/m.jpg"
    genre := ["Action", "Sci-Fi"] }

/-- The patch of an empty request body. -/
def emptyPatch : MoviePatch :=
  { title := none, year := none, director := none, duration := none, rate := none,
    poster := none, genre := none }

/-- The patch of a request body that gives a new title and nothing else. -/
def titlePatch : MoviePatch :=
  { emptyPatch with title := some "Matrix" }

/-- A sample validator that accepts every body and returns the data it is given. -/
def acceptWith {α : Type} (data : α) : Unit → SafeParse α :=
  fun _ => SafeParse.success data

/-- A sample validator that rejects every body with the issues it is given. -/
def rejectWith {α : Type} (issues : List Issue) : Unit → SafeParse α :=
  fun _ => SafeParse.failure issues

/-- ASCII case folding, a stand-in for `toLowerCase` on sample data. -/
def asciiLower (s : String) : String :=
  String.mk (s.data.map Char.toLower)

/-! ## Specification-side predicates -/

/-- The merge of one field as the spec words it: a field present in the patch has the
value of the patch, a field absent from it keeps the value of the existing record. -/
def MergedField {α : Type} (patch : Option α) (existing merged : α) : Prop :=
  (∀ v, patch = some v → merged = v) ∧ (patch = none → merged = existing)

/-- The number of records of the store that carry the id. -/
def carriers (movies : List Movie) (id : String) : Nat :=
  (movies.filter fun movie => movie.id == id).length

/-- The invariant of the data model: no two records of the store carry the same id. -/
def UniqueIds (movies : List Movie) : Prop :=
  (movies.map Movie.id).Nodup

/-! ## Facts about the primitives -/

theorem mergedField_getD {α : Type} (patch : Option α) (existing : α) :
    MergedField patch existing (patch.getD existing) := by
  cases patch <;> simp [MergedField]

theorem findIndex_eq_none {α : Type} (p : α → Bool) (l : List α) :
    findIndex p l = none ↔ ∀ x ∈ l, p x = false := by
  induction l with
  | nil => simp [findIndex]
  | cons x xs ih =>
    by_cases hx : p x = true
    · simp [findIndex, hx]
    · simp only [Bool.not_eq_true] at hx
      simp [findIndex, hx, ih]

theorem findIndex_eq_some {α : Type} (p : α → Bool) (l : List α) (i : Fin l.length)
    (h : findIndex p l = some i) :
    ∃ pre m post, l = pre ++ m :: post ∧ (∀ x ∈ pre, p x = false) ∧ p m = true ∧
      i.val = pre.length ∧ l[i] = m := by
  induction l with
  | nil => exact i.elim0
  | cons x xs ih =>
    by_cases hx : p x = true
    · simp only [findIndex, hx, if_true, Option.some.injEq] at h
      subst h
      exact ⟨[], x, xs, rfl, by simp, hx, rfl, rfl⟩
    · simp only [findIndex, hx, Bool.false_eq_true, if_false, Option.map_eq_some'] at h
      obtain ⟨j, hj, rfl⟩ := h
      obtain ⟨pre, m, post, hl, hpre, hm, hlen, hget⟩ := ih j hj
      refine ⟨x :: pre, m, post, by rw [hl]; rfl, ?_, hm, by simp [hlen], ?_⟩
      · intro y hy
        rcases List.mem_cons.mp hy with rfl | hy
        · simpa using hx
        · exact hpre y hy
      · simpa using hget

theorem findIndex_isSome_of_mem {α : Type} (p : α → Bool) (l : List α) (x : α)
    (hx : x ∈ l) (hp : p x = true) : ∃ i, findIndex p l = some i := by
  cases h : findIndex p l with
  | some i => exact ⟨i, rfl⟩
  | none =>
    have := (findIndex_eq_none p l).mp h x hx
    rw [hp] at this
    exact absurd this (by decide)

theorem eraseIdx_append_cons {α : Type} (pre : List α) (m : α) (post : List α) :
    (pre ++ m :: post).eraseIdx pre.length = pre ++ post := by
  induction pre with
  | nil => rfl
  | cons x xs ih => simp [List.eraseIdx, ih]

theorem set_append_cons {α : Type} (pre : List α) (m a : α) (post : List α) :
    (pre ++ m :: post).set pre.length a = pre ++ a :: post := by
  induction pre with
  | nil => rfl
  | cons x xs ih => simp [List.set, ih]

theorem find?_append_cons {α : Type} (p : α → Bool) (pre : List α) (m : α) (post : List α)
    (hpre : ∀ x ∈ pre, p x = false) (hm : p m = true) :
    (pre ++ m :: post).find? p = some m := by
  induction pre with
  | nil => simp [List.find?, hm]
  | cons x xs ih =>
    have hx : p x = false := hpre x (List.mem_cons_self x xs)
    have hxs : ∀ y ∈ xs, p y = false := fun y hy => hpre y (List.mem_cons_of_mem x hy)
    simp [List.find?, hx, ih hxs]

theorem map_set_same {α β : Type} (f : α → β) (l : List α) (i : Fin l.length) (a : α)
    (h : f a = f l[i]) : (l.set i.val a).map f = l.map f := by
  apply List.ext_getElem
  · simp
  · intro n h1 h2
    simp only [List.getElem_map, List.getElem_set]
    split
    · rename_i hn
      subst hn
      exact h
    · rfl

/-! ## Facts about the handlers -/

/-- The found branch of the two handlers that look a record up by `findIndex`: the store
splits around the first record that carries the id. -/
theorem findIndex_id_split (movies : List Movie) (id : String)
    (hid : ∃ m ∈ movies, m.id = id) :
    ∃ (i : Fin movies.length) (pre : List Movie) (m : Movie) (post : List Movie),
      findIndex (fun movie => movie.id == id) movies = some i ∧
      movies = pre ++ m :: post ∧ (∀ x ∈ pre, x.id ≠ id) ∧ m.id = id ∧
      i.val = pre.length ∧ movies[i] = m := by
  obtain ⟨m0, hm0, hid0⟩ := hid
  obtain ⟨i, hi⟩ := findIndex_isSome_of_mem (fun movie => movie.id == id) movies m0 hm0
    (by simp [hid0])
  obtain ⟨pre, m, post, hl, hpre, hm, hlen, hget⟩ := findIndex_eq_some _ movies i hi
  refine ⟨i, pre, m, post, hi, hl, ?_, by simpa using hm, hlen, hget⟩
  intro x hx
  simpa using hpre x hx

theorem getMovieById_found (pre : List Movie) (m : Movie) (post : List Movie) (id : String)
    (hpre : ∀ x ∈ pre, x.id ≠ id) (hm : m.id = id) :
    getMovieById (pre ++ m :: post) id
      = ⟨pre ++ m :: post, Reply.sent 200 (Body.movie m)⟩ := by
  have hfind : (pre ++ m :: post).find? (fun movie => movie.id == id) = some m :=
    find?_append_cons _ pre m post (fun x hx => by simpa using hpre x hx) (by simp [hm])
  simp only [getMovieById, hfind]

theorem getMovieById_absent (movies : List Movie) (id : String)
    (habsent : ∀ m ∈ movies, m.id ≠ id) :
    getMovieById movies id = ⟨movies, Reply.sent 404 (Body.message "Movie not found")⟩ := by
  have hfind : movies.find? (fun movie => movie.id == id) = none := by
    rw [List.find?_eq_none]
    intro x hx
    simpa using habsent x hx
  simp only [getMovieById, hfind]

theorem deleteMovieById_absent (movies : List Movie) (id : String)
    (habsent : ∀ m ∈ movies, m.id ≠ id) :
    deleteMovieById movies id = ⟨movies, Reply.threw statusCodeCall⟩ := by
  have hnone : findIndex (fun movie => movie.id == id) movies = none := by
    rw [findIndex_eq_none]
    intro x hx
    simpa using habsent x hx
  simp only [deleteMovieById, hnone]

theorem patchMovieById_absent {β : Type} (validatePartialMovie : β → SafeParse MoviePatch)
    (movies : List Movie) (id : String) (body : β) (data : MoviePatch)
    (hvalid : validatePartialMovie body = SafeParse.success data)
    (habsent : ∀ m ∈ movies, m.id ≠ id) :
    patchMovieById validatePartialMovie movies id body
      = ⟨movies, Reply.threw statusCodeCall⟩ := by
  have hnone : findIndex (fun movie => movie.id == id) movies = none := by
    rw [findIndex_eq_none]
    intro x hx
    simpa using habsent x hx
  simp only [patchMovieById, hvalid, hnone]

theorem getMovieById_reply_not_found_iff (movies : List Movie) (id : String) :
    (getMovieById movies id).reply = Reply.sent 404 (Body.message "Movie not found")
      ↔ ∀ m ∈ movies, m.id ≠ id := by
  constructor
  · intro hreply
    by_contra hnot
    have hid : ∃ m ∈ movies, m.id = id := by
      simp only [ne_eq, not_forall, Classical.not_imp, not_not] at hnot
      obtain ⟨m, hm, h⟩ := hnot
      exact ⟨m, hm, h⟩
    obtain ⟨i, pre, m, post, -, hl, hpre, hm, -, -⟩ := findIndex_id_split movies id hid
    rw [hl, getMovieById_found pre m post id hpre hm] at hreply
    simp at hreply
  · intro habsent
    rw [getMovieById_absent movies id habsent]

theorem carriers_append_cons (pre : List Movie) (m : Movie) (post : List Movie) (id : String)
    (hpre : ∀ x ∈ pre, x.id ≠ id) (hm : m.id = id) :
    carriers (pre ++ m :: post) id = carriers post id + 1 := by
  have hnil : pre.filter (fun movie => movie.id == id) = [] := by
    rw [List.filter_eq_nil_iff]
    intro x hx
    simpa using hpre x hx
  simp [carriers, List.filter_append, hnil, List.filter_cons, hm]

theorem carriers_eq_zero_iff (movies : List Movie) (id : String) :
    carriers movies id = 0 ↔ ∀ m ∈ movies, m.id ≠ id := by
  simp [carriers, List.filter_eq_nil_iff]

theorem carriers_le_one_of_uniqueIds (movies : List Movie) (id : String)
    (hunique : UniqueIds movies) : carriers movies id ≤ 1 := by
  by_cases hid : ∃ m ∈ movies, m.id = id
  · obtain ⟨i, pre, m, post, -, hl, hpre, hm, -, -⟩ := findIndex_id_split movies id hid
    have hpost : ∀ x ∈ post, x.id ≠ id := by
      intro x hx hxid
      rw [UniqueIds, hl, List.map_append, List.map_cons, List.nodup_append] at hunique
      have hnd := (List.nodup_cons.mp hunique.2.1).1
      exact hnd (by rw [hm, ← hxid]; exact List.mem_map_of_mem _ hx)
    rw [hl, carriers_append_cons pre m post id hpre hm, (carriers_eq_zero_iff post id).mpr hpost]
  · have habsent : ∀ m ∈ movies, m.id ≠ id := fun m hm h => hid ⟨m, hm, h⟩
    rw [(carriers_eq_zero_iff movies id).mpr habsent]
    exact Nat.zero_le 1

theorem getMovieById_appended_iff (movies : List Movie) (created : Movie) (uuid : String)
    (hcreated : created.id = uuid) :
    (getMovieById (movies ++ [created]) uuid).reply = Reply.sent 200 (Body.movie created)
      ↔ ((∀ m ∈ movies, m.id ≠ uuid) ∨
          ∃ (pre : List Movie) (post : List Movie),
            movies = pre ++ created :: post ∧ ∀ x ∈ pre, x.id ≠ uuid) := by
  by_cases hid : ∃ m ∈ movies, m.id = uuid
  · obtain ⟨i, pre, m, post, -, hl, hpre, hm, -, -⟩ := findIndex_id_split movies uuid hid
    have hrun : (getMovieById (movies ++ [created]) uuid).reply
        = Reply.sent 200 (Body.movie m) := by
      have hfound := getMovieById_found pre m (post ++ [created]) uuid hpre hm
      rw [hl, List.append_assoc, List.cons_append, hfound]
    constructor
    · intro heq
      rw [hrun] at heq
      have hmc : m = created := by simpa using heq
      exact Or.inr ⟨pre, post, by rw [← hmc]; exact hl, hpre⟩
    · rintro (hfresh | ⟨pre2, post2, hl2, hpre2⟩)
      · obtain ⟨m0, hm0, h0⟩ := hid
        exact absurd h0 (hfresh m0 hm0)
      · have hfound := getMovieById_found pre2 created (post2 ++ [created]) uuid hpre2 hcreated
        rw [hl2, List.append_assoc, List.cons_append, hfound]
  · have hfresh : ∀ m ∈ movies, m.id ≠ uuid := fun m hm h => hid ⟨m, hm, h⟩
    have hfound := getMovieById_found movies created [] uuid hfresh hcreated
    rw [hfound]
    exact ⟨fun _ => Or.inl hfresh, fun _ => rfl⟩

/-! ## The unique-id invariant: kept by update and delete, and by create under a new id -/

theorem getMovies_keeps_store (toLowerCase : String → String) (movies : List Movie)
    (genre : Option String) : (getMovies toLowerCase movies genre).movies = movies := by
  unfold getMovies
  split
  · split <;> rfl
  · rfl

theorem postMovies_keeps_uniqueIds {β : Type} (validateMovie : β → SafeParse MovieData)
    (uuid : String) (movies : List Movie) (body : β)
    (hunique : UniqueIds movies) (hfresh : ∀ m ∈ movies, m.id ≠ uuid) :
    UniqueIds (postMovies validateMovie uuid movies body).movies := by
  unfold postMovies
  split
  · exact hunique
  · simp only [UniqueIds, List.map_append, List.map_cons, List.map_nil]
    rw [List.nodup_append]
    refine ⟨hunique, List.nodup_singleton _, ?_⟩
    intro a ha hb
    obtain ⟨m, hm, rfl⟩ := List.mem_map.mp ha
    exact hfresh m hm (by simpa using hb)

theorem deleteMovieById_keeps_uniqueIds (movies : List Movie) (id : String)
    (hunique : UniqueIds movies) : UniqueIds (deleteMovieById movies id).movies := by
  unfold deleteMovieById
  split
  · exact hunique
  · exact List.Nodup.sublist ((List.eraseIdx_sublist _ _).map _) hunique

theorem patchMovieById_keeps_ids {β : Type} (validatePartialMovie : β → SafeParse MoviePatch)
    (movies : List Movie) (id : String) (body : β) :
    (patchMovieById validatePartialMovie movies id body).movies.map Movie.id
      = movies.map Movie.id := by
  unfold patchMovieById
  split
  · rfl
  · split
    · rfl
    · rename_i data _ _ i _
      exact map_set_same Movie.id movies i (spread movies[i] data) rfl

theorem patchMovieById_keeps_uniqueIds {β : Type}
    (validatePartialMovie : β → SafeParse MoviePatch)
    (movies : List Movie) (id : String) (body : β) (hunique : UniqueIds movies) :
    UniqueIds (patchMovieById validatePartialMovie movies id body).movies := by
  unfold UniqueIds
  rw [patchMovieById_keeps_ids]
  exact hunique

/-! ## The claims -/

/-- C1 (code defect). On an id that no record carries, delete and update do not answer
404: the statement meant to do so is `res.statusCode(404).json(...)`, and `statusCode`
is not callable, so both handlers raise a `TypeError` at that point and send nothing.
The store is left as it was. Evaluated on the store holding `inception` alone and the
id `"no-such-id"`. -/
theorem C1_not_found_raises_type_error :
    deleteMovieById [inception] "no-such-id"
      = ⟨[inception], Reply.threw (JsError.typeError "res.statusCode is not a function")⟩ ∧
    patchMovieById (acceptWith emptyPatch) [inception] "no-such-id" ()
      = ⟨[inception], Reply.threw (JsError.typeError "res.statusCode is not a function")⟩ ∧
    (deleteMovieById [inception] "no-such-id").reply
      ≠ Reply.sent 404 (Body.message "Movie not found") ∧
    (patchMovieById (acceptWith emptyPatch) [inception] "no-such-id" ()).reply
      ≠ Reply.sent 404 (Body.message "Movie not found") := by
  refine ⟨by decide, by decide, by decide, by decide⟩

/-- C2 (counterexample). An `Origin` header that is present and empty is allowed,
although it is not absent and is none of the four allow-list strings. -/
theorem C2_empty_origin_is_allowed :
    corsOrigin (some "") = CorsDecision.allow ∧
    (some "" : Option String) ≠ none ∧
    "" ∉ ACCEPTED_ORIGINS := by
  refine ⟨by decide, by decide, by decide⟩

/-- C2 (amended). The origin callback allows a request exactly when its origin is absent,
is the empty string, or equals one of the four allow-list strings; every other origin
is rejected with the error `Not allowed by CORS`. `https://movies.com` is allowed,
`https://evil.example` is rejected, an absent origin is allowed. -/
theorem C2_origin_policy (origin : Option String) :
    ACCEPTED_ORIGINS =
      ["http://127.0.0.1:5500", "http://localhost:5500", "https://movies.com",
        "https://midu.dev"] ∧
    (corsOrigin origin = CorsDecision.allow ↔
      origin = none ∨ origin = some "" ∨ ∃ o ∈ ACCEPTED_ORIGINS, origin = some o) ∧
    (corsOrigin origin = CorsDecision.reject "Not allowed by CORS" ↔
      ∃ o, origin = some o ∧ o ≠ "" ∧ o ∉ ACCEPTED_ORIGINS) ∧
    corsOrigin (some "https://movies.com") = CorsDecision.allow ∧
    corsOrigin (some "https://evil.example") = CorsDecision.reject "Not allowed by CORS" ∧
    corsOrigin none = CorsDecision.allow := by
  refine ⟨rfl, ?_, ?_, by decide, by decide, by decide⟩
  · cases origin with
    | none => simp [corsOrigin, includesOrigin, truthy]
    | some o =>
      by_cases hmem : o ∈ ACCEPTED_ORIGINS
      · have hc : ACCEPTED_ORIGINS.contains o = true := by simpa using hmem
        simp [corsOrigin, includesOrigin, hc, hmem]
      · have hc : ACCEPTED_ORIGINS.contains o = false := by simpa using hmem
        by_cases he : o = ""
        · simp [corsOrigin, includesOrigin, truthy, hc, he]
        · simp [corsOrigin, includesOrigin, truthy, hc, he, hmem]
  · cases origin with
    | none => simp [corsOrigin, includesOrigin, truthy]
    | some o =>
      by_cases hmem : o ∈ ACCEPTED_ORIGINS
      · have hc : ACCEPTED_ORIGINS.contains o = true := by simpa using hmem
        simp [corsOrigin, includesOrigin, hc, hmem]
      · have hc : ACCEPTED_ORIGINS.contains o = false := by simpa using hmem
        by_cases he : o = ""
        · simp [corsOrigin, includesOrigin, truthy, hc, he]
        · simp [corsOrigin, includesOrigin, truthy, hc, he, hmem]

/-- C3. When the validator rejects the request body, create (full validation) and
update (validation of a patch) answer 400 with the issues of the validator and leave
the store as it was; for update this is so for every id, carried by a record or not. -/
theorem C3_rejected_body_answers_400 {β γ : Type}
    (validateMovie : β → SafeParse MovieData)
    (validatePartialMovie : γ → SafeParse MoviePatch)
    (uuid : String) (movies : List Movie) (id : String)
    (body : β) (issues : List Issue) (patchBody : γ) (patchIssues : List Issue)
    (hfull : validateMovie body = SafeParse.failure issues)
    (hpatch : validatePartialMovie patchBody = SafeParse.failure patchIssues) :
    postMovies validateMovie uuid movies body
      = ⟨movies, Reply.sent 400 (Body.error issues)⟩ ∧
    patchMovieById validatePartialMovie movies id patchBody
      = ⟨movies, Reply.sent 400 (Body.error patchIssues)⟩ := by
  constructor
  · simp only [postMovies, hfull]
  · simp only [patchMovieById, hpatch]

/-- C3 at a sample input: a create and an update whose bodies the validators reject, the
update on an id no record carries. -/
theorem C3_rejected_body_answers_400_witness :
    postMovies (rejectWith [⟨["title"], "Required"⟩]) "u-1" [inception] ()
      = ⟨[inception], Reply.sent 400 (Body.error [⟨["title"], "Required"⟩])⟩ ∧
    patchMovieById (rejectWith [⟨["year"], "Expected number"⟩]) [inception] "no-such-id" ()
      = ⟨[inception], Reply.sent 400 (Body.error [⟨["year"], "Expected number"⟩])⟩ :=
  C3_rejected_body_answers_400 (rejectWith [⟨["title"], "Required"⟩])
    (rejectWith [⟨["year"], "Expected number"⟩]) "u-1" [inception] "no-such-id"
    () [⟨["title"], "Required"⟩] () [⟨["year"], "Expected number"⟩] rfl rfl

/-- C4. When the full validator accepts the body with data `d`, create answers 201 with
a record made of the generated id and exactly the fields of `d`, and the store it
leaves is the store it found with that record appended: one record longer, the
earlier records as they were and where they were, the new record last. -/
theorem C4_create_appends_record {β : Type} (validateMovie : β → SafeParse MovieData)
    (uuid : String) (movies : List Movie) (body : β) (d : MovieData)
    (hvalid : validateMovie body = SafeParse.success d) :
    ∃ newMovie : Movie,
      newMovie.id = uuid ∧ newMovie.toMovieData = d ∧
      (postMovies validateMovie uuid movies body).reply
        = Reply.sent 201 (Body.movie newMovie) ∧
      (postMovies validateMovie uuid movies body).movies = movies ++ [newMovie] ∧
      (postMovies validateMovie uuid movies body).movies.length = movies.length + 1 ∧
      (postMovies validateMovie uuid movies body).movies.take movies.length = movies ∧
      (postMovies validateMovie uuid movies body).movies.getLast? = some newMovie := by
  refine ⟨{ d with id := uuid }, rfl, rfl, ?_, ?_, ?_, ?_, ?_⟩ <;>
    simp [postMovies, hvalid]

/-- C4 at a sample input: the data of `inception` created into the store holding `matrix`. -/
theorem C4_create_appends_record_witness :
    ∃ newMovie : Movie,
      newMovie.id = "u-1" ∧ newMovie.toMovieData = inception.toMovieData ∧
      (postMovies (acceptWith inception.toMovieData) "u-1" [matrix] ()).reply
        = Reply.sent 201 (Body.movie newMovie) ∧
      (postMovies (acceptWith inception.toMovieData) "u-1" [matrix] ()).movies
        = [matrix] ++ [newMovie] ∧
      (postMovies (acceptWith inception.toMovieData) "u-1" [matrix] ()).movies.length
        = [matrix].length + 1 ∧
      (postMovies (acceptWith inception.toMovieData) "u-1" [matrix] ()).movies.take
        [matrix].length = [matrix] ∧
      (postMovies (acceptWith inception.toMovieData) "u-1" [matrix] ()).movies.getLast?
        = some newMovie :=
  C4_create_appends_record (acceptWith inception.toMovieData) "u-1" [matrix] ()
    inception.toMovieData rfl

/-- C5. When the validator accepts the patch `p` and some record carries the id, update
answers 200 with the merged record: every field present in `p` has the value of `p`,
every other field, the id included, has the value of the existing record. The store
keeps its length; the merged record stands where the first record with that id stood
and every other record is as it was. With the empty patch the record is unchanged, and
with a patch of one field the record changes in that field alone. -/
theorem C5_update_merges_in_place {β : Type}
    (validatePartialMovie : β → SafeParse MoviePatch)
    (movies : List Movie) (id : String) (body : β) (p : MoviePatch)
    (hvalid : validatePartialMovie body = SafeParse.success p)
    (hid : ∃ m ∈ movies, m.id = id) :
    ∃ (pre : List Movie) (m : Movie) (post : List Movie) (merged : Movie),
      movies = pre ++ m :: post ∧ (∀ x ∈ pre, x.id ≠ id) ∧ m.id = id ∧
      patchMovieById validatePartialMovie movies id body
        = ⟨pre ++ merged :: post, Reply.sent 200 (Body.movie merged)⟩ ∧
      (pre ++ merged :: post).length = movies.length ∧
      merged.id = m.id ∧
      MergedField p.title m.title merged.title ∧
      MergedField p.year m.year merged.year ∧
      MergedField p.director m.director merged.director ∧
      MergedField p.duration m.duration merged.duration ∧
      MergedField p.rate m.rate merged.rate ∧
      MergedField p.poster m.poster merged.poster ∧
      MergedField p.genre m.genre merged.genre ∧
      (p = emptyPatch → merged = m) ∧
      (∀ v, p = { emptyPatch with title := some v } → merged = { m with title := v }) ∧
      (∀ v, p = { emptyPatch with year := some v } → merged = { m with year := v }) ∧
      (∀ v, p = { emptyPatch with director := some v } → merged = { m with director := v }) ∧
      (∀ v, p = { emptyPatch with duration := some v } → merged = { m with duration := v }) ∧
      (∀ v, p = { emptyPatch with rate := some v } → merged = { m with rate := v }) ∧
      (∀ v, p = { emptyPatch with poster := some v } → merged = { m with poster := v }) ∧
      (∀ v, p = { emptyPatch with genre := some v } → merged = { m with genre := v }) := by
  obtain ⟨i, pre, m, post, hi, hl, hpre, hm, hlen, hget⟩ := findIndex_id_split movies id hid
  have hset : movies.set i.val (spread m p) = pre ++ spread m p :: post := by
    rw [hlen, hl, set_append_cons]
  refine ⟨pre, m, post, spread m p, hl, hpre, hm, ?_, ?_, rfl, ?_, ?_, ?_, ?_, ?_, ?_, ?_, ?_,
    ?_, ?_, ?_, ?_, ?_, ?_, ?_⟩
  · simp only [patchMovieById, hvalid, hi, List.get_eq_getElem, List.getElem_set_self]
    rw [hget, hset]
  · simp [hl]
  · exact mergedField_getD _ _
  · exact mergedField_getD _ _
  · exact mergedField_getD _ _
  · exact mergedField_getD _ _
  · exact mergedField_getD _ _
  · exact mergedField_getD _ _
  · exact mergedField_getD _ _
  · rintro rfl
    rfl
  · rintro v rfl
    rfl
  · rintro v rfl
    rfl
  · rintro v rfl
    rfl
  · rintro v rfl
    rfl
  · rintro v rfl
    rfl
  · rintro v rfl
    rfl
  · rintro v rfl
    rfl

/-- C5 at a sample input: a patch of the title alone applied to `matrix`, the second record
of the store. -/
theorem C5_update_merges_in_place_witness :
    (acceptWith titlePatch () = SafeParse.success titlePatch ∧
      ∃ m ∈ [inception, matrix], m.id = "5ad1a235-0d9c-410a-b32b-220d91689a08") ∧
    ∃ (pre : List Movie) (m : Movie) (post : List Movie) (merged : Movie),
      [inception, matrix] = pre ++ m :: post ∧
      (∀ x ∈ pre, x.id ≠ "5ad1a235-0d9c-410a-b32b-220d91689a08") ∧
      m.id = "5ad1a235-0d9c-410a-b32b-220d91689a08" ∧
      patchMovieById (acceptWith titlePatch) [inception, matrix]
          "5ad1a235-0d9c-410a-b32b-220d91689a08" ()
        = ⟨pre ++ merged :: post, Reply.sent 200 (Body.movie merged)⟩ ∧
      merged = { m with title := "Matrix" } := by
  refine ⟨⟨rfl, matrix, by simp, rfl⟩, ?_⟩
  obtain ⟨pre, m, post, merged, hl, hpre, hm, hrun, -, -, -, -, -, -, -, -, -, -, htitle, -⟩ :=
    C5_update_merges_in_place (acceptWith titlePatch) [inception, matrix]
      "5ad1a235-0d9c-410a-b32b-220d91689a08" () titlePatch rfl ⟨matrix, by simp, rfl⟩
  exact ⟨pre, m, post, merged, hl, hpre, hm, hrun, htitle "Matrix" rfl⟩

/-- C6. When some record carries the id, delete answers 200 with the message
`Movie deleted`, and the store it leaves is the store it found without the first
record that carries the id: the records before and after it remain, in their order, and
the store is one record shorter. -/
theorem C6_delete_removes_first_match (movies : List Movie) (id : String)
    (hid : ∃ m ∈ movies, m.id = id) :
    ∃ (pre : List Movie) (m : Movie) (post : List Movie),
      movies = pre ++ m :: post ∧ (∀ x ∈ pre, x.id ≠ id) ∧ m.id = id ∧
      deleteMovieById movies id
        = ⟨pre ++ post, Reply.sent 200 (Body.message "Movie deleted")⟩ ∧
      (pre ++ post).length + 1 = movies.length := by
  obtain ⟨i, pre, m, post, hi, hl, hpre, hm, hlen, -⟩ := findIndex_id_split movies id hid
  have herase : movies.eraseIdx i.val = pre ++ post := by
    rw [hlen, hl, eraseIdx_append_cons]
  refine ⟨pre, m, post, hl, hpre, hm, ?_, ?_⟩
  · simp [deleteMovieById, hi, herase]
  · simp [hl]
    omega

/-- C6 at a sample input: a store in which two records carry the id that is deleted. -/
theorem C6_delete_removes_first_match_witness :
    (∃ m ∈ [inception, matrix, inception], m.id = "dcdd0fad-a94c-4810-8acc-5f108d3b18c3") ∧
    ∃ (pre : List Movie) (m : Movie) (post : List Movie),
      [inception, matrix, inception] = pre ++ m :: post ∧
      (∀ x ∈ pre, x.id ≠ "dcdd0fad-a94c-4810-8acc-5f108d3b18c3") ∧
      m.id = "dcdd0fad-a94c-4810-8acc-5f108d3b18c3" ∧
      deleteMovieById [inception, matrix, inception] "dcdd0fad-a94c-4810-8acc-5f108d3b18c3"
        = ⟨pre ++ post, Reply.sent 200 (Body.message "Movie deleted")⟩ ∧
      (pre ++ post).length + 1 = [inception, matrix, inception].length :=
  ⟨⟨inception, by simp, rfl⟩,
    C6_delete_removes_first_match [inception, matrix, inception]
      "dcdd0fad-a94c-4810-8acc-5f108d3b18c3" ⟨inception, by simp, rfl⟩⟩

/-- C7. Get-by-id never changes the store. When some record carries the id it answers
200 with the first stored record that carries it; when none does it answers 404 with
the message `Movie not found`. Asked again on the store it left, it gives the same
answer. -/
theorem C7_get_by_id (movies : List Movie) (id : String) :
    (getMovieById movies id).movies = movies ∧
    ((∃ m ∈ movies, m.id = id) →
      ∃ (pre : List Movie) (m : Movie) (post : List Movie),
        movies = pre ++ m :: post ∧ (∀ x ∈ pre, x.id ≠ id) ∧ m.id = id ∧
        (getMovieById movies id).reply = Reply.sent 200 (Body.movie m)) ∧
    ((∀ m ∈ movies, m.id ≠ id) →
      (getMovieById movies id).reply = Reply.sent 404 (Body.message "Movie not found")) ∧
    getMovieById (getMovieById movies id).movies id = getMovieById movies id := by
  have hstore : (getMovieById movies id).movies = movies := by
    unfold getMovieById
    split <;> rfl
  refine ⟨hstore, ?_, ?_, by rw [hstore]⟩
  · intro hid
    obtain ⟨i, pre, m, post, -, hl, hpre, hm, -, -⟩ := findIndex_id_split movies id hid
    refine ⟨pre, m, post, hl, hpre, hm, ?_⟩
    rw [hl, getMovieById_found pre m post id hpre hm]
  · intro habsent
    rw [getMovieById_absent movies id habsent]

/-- C7 at sample inputs: an id the second record carries and an id no record carries. -/
theorem C7_get_by_id_witness :
    ((∃ m ∈ [inception, matrix], m.id = "5ad1a235-0d9c-410a-b32b-220d91689a08") ∧
      ∃ (pre : List Movie) (m : Movie) (post : List Movie),
        [inception, matrix] = pre ++ m :: post ∧
        (∀ x ∈ pre, x.id ≠ "5ad1a235-0d9c-410a-b32b-220d91689a08") ∧
        m.id = "5ad1a235-0d9c-410a-b32b-220d91689a08" ∧
        (getMovieById [inception, matrix] "5ad1a235-0d9c-410a-b32b-220d91689a08").reply
          = Reply.sent 200 (Body.movie m)) ∧
    ((∀ m ∈ [inception, matrix], m.id ≠ "no-such-id") ∧
      (getMovieById [inception, matrix] "no-such-id").reply
        = Reply.sent 404 (Body.message "Movie not found")) :=
  ⟨⟨⟨matrix, by simp, rfl⟩,
      (C7_get_by_id [inception, matrix] "5ad1a235-0d9c-410a-b32b-220d91689a08").2.1
        ⟨matrix, by simp, rfl⟩⟩,
    ⟨by decide, (C7_get_by_id [inception, matrix] "no-such-id").2.2.1 (by decide)⟩⟩

/-- C8. For a non-empty genre argument `g` the list operation answers 200 with the
records of the store, in store order, whose genre list holds a value equal to `g` once
both are lower-cased, and with the empty list when there is none; the store is left
as it was. Two non-empty arguments with the same lower-casing get the same answer, and
a record whose genre list holds `Action` is returned for every `g` that lower-cases as
`Action` does. -/
theorem C8_genre_filter (toLowerCase : String → String) (movies : List Movie) (g : String)
    (hg : g ≠ "") :
    ∃ filtered : List Movie,
      getMovies toLowerCase movies (some g)
        = ⟨movies, Reply.sent 200 (Body.movies filtered)⟩ ∧
      filtered
        = movies.filter (fun m => decide (∃ x ∈ m.genre, toLowerCase x = toLowerCase g)) ∧
      filtered.Sublist movies ∧
      (∀ m, m ∈ filtered ↔ m ∈ movies ∧ ∃ x ∈ m.genre, toLowerCase x = toLowerCase g) ∧
      ((∀ m ∈ movies, ∀ x ∈ m.genre, toLowerCase x ≠ toLowerCase g) → filtered = []) ∧
      (∀ g2 : String, g2 ≠ "" → toLowerCase g2 = toLowerCase g →
        getMovies toLowerCase movies (some g2) = getMovies toLowerCase movies (some g)) ∧
      (toLowerCase "Action" = toLowerCase g →
        ∀ m ∈ movies, "Action" ∈ m.genre → m ∈ filtered) := by
  have hrun : ∀ s : String, s ≠ "" →
      getMovies toLowerCase movies (some s)
        = ⟨movies, Reply.sent 200 (Body.movies
            (movies.filter
              (fun m => decide (∃ x ∈ m.genre, toLowerCase x = toLowerCase s))))⟩ := by
    intro s hs
    have ht : truthy (some s) = true := by simp [truthy, hs]
    have hpred : (fun movie : Movie => movie.genre.any fun x => toLowerCase x == toLowerCase s)
        = (fun m => decide (∃ x ∈ m.genre, toLowerCase x = toLowerCase s)) := by
      funext m
      rw [Bool.eq_iff_iff]
      simp
    simp only [getMovies, ht, if_true, hpred]
  refine ⟨_, hrun g hg, rfl, List.filter_sublist _, ?_, ?_, ?_, ?_⟩
  · intro m
    simp [List.mem_filter]
  · intro hnone
    rw [List.filter_eq_nil_iff]
    intro m hm
    simp only [decide_eq_true_eq, not_exists, not_and]
    exact fun x hx => hnone m hm x hx
  · intro g2 hg2 hsame
    rw [hrun g2 hg2, hrun g hg, hsame]
  · intro hsame m hm hgenre
    simp only [List.mem_filter, decide_eq_true_eq]
    exact ⟨hm, "Action", hgenre, hsame⟩

/-- C8 at a sample input: filtering by `action` under ASCII lower-casing returns `matrix`,
whose genre list holds `Action`, and not `inception`. -/
theorem C8_genre_filter_witness :
    "action" ≠ "" ∧
    getMovies asciiLower [inception, matrix] (some "action")
      = ⟨[inception, matrix], Reply.sent 200 (Body.movies [matrix])⟩ := by
  refine ⟨by decide, ?_⟩
  obtain ⟨filtered, hrun, hfiltered, -⟩ :=
    C8_genre_filter asciiLower [inception, matrix] "action" (by decide)
  rw [hrun, hfiltered]
  decide

/-- C9 (counterexample). In the store holding `matrix`, a create whose generated id is the
id of `matrix` answers 201 with the new record, but get-by-id with the returned id
answers 200 with `matrix`, the first record that carries the id, and not with the
record create returned. -/
theorem C9_round_trip_fails_on_stored_id :
    acceptWith inception.toMovieData () = SafeParse.success inception.toMovieData ∧
    (postMovies (acceptWith inception.toMovieData) "5ad1a235-0d9c-410a-b32b-220d91689a08"
        [matrix] ()).reply
      = Reply.sent 201
          (Body.movie { inception with id := "5ad1a235-0d9c-410a-b32b-220d91689a08" }) ∧
    (getMovieById
        (postMovies (acceptWith inception.toMovieData) "5ad1a235-0d9c-410a-b32b-220d91689a08"
          [matrix] ()).movies
        "5ad1a235-0d9c-410a-b32b-220d91689a08").reply
      = Reply.sent 200 (Body.movie matrix) ∧
    (getMovieById
        (postMovies (acceptWith inception.toMovieData) "5ad1a235-0d9c-410a-b32b-220d91689a08"
          [matrix] ()).movies
        "5ad1a235-0d9c-410a-b32b-220d91689a08").reply
      ≠ Reply.sent 200
          (Body.movie { inception with id := "5ad1a235-0d9c-410a-b32b-220d91689a08" }) := by
  refine ⟨rfl, by decide, by decide, by decide⟩

/-- C9 (amended). Round trip: when the full validator accepts the payload with data `d`,
create answers 201 with the record made of the generated id and the fields of `d`, and
get-by-id with that id on the store create left answers 200 with that same record
exactly when no record of the original store carries the generated id, or the first
one that does is equal to the created record. -/
theorem C9_create_then_get {β : Type} (validateMovie : β → SafeParse MovieData)
    (uuid : String) (movies : List Movie) (body : β) (d : MovieData)
    (hvalid : validateMovie body = SafeParse.success d) :
    ∃ created : Movie,
      created.id = uuid ∧ created.toMovieData = d ∧
      (postMovies validateMovie uuid movies body).reply
        = Reply.sent 201 (Body.movie created) ∧
      ((getMovieById (postMovies validateMovie uuid movies body).movies created.id).reply
          = Reply.sent 200 (Body.movie created)
        ↔ ((∀ m ∈ movies, m.id ≠ uuid) ∨
            ∃ (pre : List Movie) (post : List Movie),
              movies = pre ++ created :: post ∧ ∀ x ∈ pre, x.id ≠ uuid)) := by
  refine ⟨{ d with id := uuid }, rfl, rfl, ?_, ?_⟩
  · simp only [postMovies, hvalid]
  · simp only [postMovies, hvalid]
    exact getMovieById_appended_iff movies _ uuid rfl

/-- C9 at a sample input: the data of `inception` created into the store holding `matrix`
under an id the store does not carry, and read back. -/
theorem C9_create_then_get_witness :
    (acceptWith inception.toMovieData () = SafeParse.success inception.toMovieData ∧
      ∀ m ∈ [matrix], m.id ≠ "dcdd0fad-a94c-4810-8acc-5f108d3b18c3") ∧
    ∃ created : Movie,
      created.id = "dcdd0fad-a94c-4810-8acc-5f108d3b18c3" ∧
      created.toMovieData = inception.toMovieData ∧
      (postMovies (acceptWith inception.toMovieData) "dcdd0fad-a94c-4810-8acc-5f108d3b18c3"
          [matrix] ()).reply
        = Reply.sent 201 (Body.movie created) ∧
      (getMovieById
          (postMovies (acceptWith inception.toMovieData)
            "dcdd0fad-a94c-4810-8acc-5f108d3b18c3" [matrix] ()).movies
          created.id).reply
        = Reply.sent 200 (Body.movie created) := by
  refine ⟨⟨rfl, by decide⟩, ?_⟩
  obtain ⟨created, hcid, hdata, hreply, hiff⟩ :=
    C9_create_then_get (acceptWith inception.toMovieData)
      "dcdd0fad-a94c-4810-8acc-5f108d3b18c3" [matrix] () inception.toMovieData rfl
  exact ⟨created, hcid, hdata, hreply, hiff.mpr (Or.inl (by decide))⟩

/-- C10 (counterexample). In the store `[inception, matrix, inception]` two records carry
the id of `inception`; delete removes the first one only, and get-by-id on the same
id then answers 200 with the second, not 404. -/
theorem C10_duplicate_id_survives_delete :
    (deleteMovieById [inception, matrix, inception]
        "dcdd0fad-a94c-4810-8acc-5f108d3b18c3").movies = [matrix, inception] ∧
    (getMovieById
        (deleteMovieById [inception, matrix, inception]
          "dcdd0fad-a94c-4810-8acc-5f108d3b18c3").movies
        "dcdd0fad-a94c-4810-8acc-5f108d3b18c3").reply
      = Reply.sent 200 (Body.movie inception) ∧
    (getMovieById
        (deleteMovieById [inception, matrix, inception]
          "dcdd0fad-a94c-4810-8acc-5f108d3b18c3").movies
        "dcdd0fad-a94c-4810-8acc-5f108d3b18c3").reply
      ≠ Reply.sent 404 (Body.message "Movie not found") := by
  refine ⟨by decide, by decide, by decide⟩

/-- C10 (amended). For every store and every id, delete on the id followed by get-by-id on
the same id makes get-by-id answer 404 exactly when at most one record of the store
carries the id (none included: delete then leaves the store as it was). In particular
it does so in every store whose ids are pairwise distinct. -/
theorem C10_delete_then_get (movies : List Movie) (id : String) :
    ((getMovieById (deleteMovieById movies id).movies id).reply
        = Reply.sent 404 (Body.message "Movie not found")
      ↔ carriers movies id ≤ 1) ∧
    (UniqueIds movies →
      (getMovieById (deleteMovieById movies id).movies id).reply
        = Reply.sent 404 (Body.message "Movie not found")) := by
  have hiff : (getMovieById (deleteMovieById movies id).movies id).reply
        = Reply.sent 404 (Body.message "Movie not found")
      ↔ carriers movies id ≤ 1 := by
    rw [getMovieById_reply_not_found_iff]
    by_cases hid : ∃ m ∈ movies, m.id = id
    · obtain ⟨i, pre, m, post, hi, hl, hpre, hm, hlen, -⟩ := findIndex_id_split movies id hid
      have herase : movies.eraseIdx i.val = pre ++ post := by
        rw [hlen, hl, eraseIdx_append_cons]
      have hstore : (deleteMovieById movies id).movies = pre ++ post := by
        simp only [deleteMovieById, hi, herase]
      have hcount : carriers movies id = carriers post id + 1 := by
        rw [hl, carriers_append_cons pre m post id hpre hm]
      rw [hstore, hcount]
      constructor
      · intro hrest
        have hpost : carriers post id = 0 :=
          (carriers_eq_zero_iff post id).mpr
            (fun x hx => hrest x (List.mem_append.mpr (Or.inr hx)))
        omega
      · intro hle x hx
        have hpost : carriers post id = 0 := by omega
        rcases List.mem_append.mp hx with h | h
        · exact hpre x h
        · exact (carriers_eq_zero_iff post id).mp hpost x h
    · have habsent : ∀ m ∈ movies, m.id ≠ id := fun m hm h => hid ⟨m, hm, h⟩
      rw [deleteMovieById_absent movies id habsent]
      have hzero := (carriers_eq_zero_iff movies id).mpr habsent
      constructor
      · intro _
        omega
      · intro _
        exact habsent
  exact ⟨hiff, fun hunique => hiff.mpr (carriers_le_one_of_uniqueIds movies id hunique)⟩

/-- C10 at sample inputs: the first of two records deleted and looked up again, and an id
that no record carries. -/
theorem C10_delete_then_get_witness :
    (carriers [inception, matrix] "dcdd0fad-a94c-4810-8acc-5f108d3b18c3" ≤ 1 ∧
      (getMovieById
          (deleteMovieById [inception, matrix]
            "dcdd0fad-a94c-4810-8acc-5f108d3b18c3").movies
          "dcdd0fad-a94c-4810-8acc-5f108d3b18c3").reply
        = Reply.sent 404 (Body.message "Movie not found")) ∧
    (carriers [inception, matrix] "no-such-id" ≤ 1 ∧
      (getMovieById (deleteMovieById [inception, matrix] "no-such-id").movies
          "no-such-id").reply
        = Reply.sent 404 (Body.message "Movie not found")) :=
  ⟨⟨by decide,
      (C10_delete_then_get [inception, matrix]
        "dcdd0fad-a94c-4810-8acc-5f108d3b18c3").1.mpr (by decide)⟩,
    ⟨by decide, (C10_delete_then_get [inception, matrix] "no-such-id").1.mpr (by decide)⟩⟩

end RestApiDeploy
